import Mathlib

/-!
# Verification of the analytics collector (`scripts/collect.py`)

A shallow embedding of the collection, delta, reconciliation and backfill
logic of `scripts/collect.py`, together with theorems settling the frozen
claims about it.

Modelling conventions:
* HTTP fetches are modelled as explicit function arguments; a failed or
  non-200 request is `Option.none`, a successful JSON body is `some`.
* CSV files are `Option (List ρ)` where `none` is an absent file and
  `some rows` is a file holding the header plus `rows` (typed rows stand
  for their textual serialisation).
* Dates are ISO `String`s (`"YYYY-MM-DD"`); `datetime` day arithmetic in
  the backfill planner is modelled by an integer day number `today` and an
  abstract formatter `fmt : Int → String`, since
  `(now - timedelta(days = d)).strftime("%Y-%m-%d")` only depends on the
  UTC day number `today - d`.
* Python integers are `Nat`/`Int`; download counts are `Int` so that
  deltas may be negative, as in the source.
-/

namespace Collect

/-- One sampled star-history point: `{"date": ..., "stars": ...}`. -/
structure StarPoint where
  date : String
  stars : Nat
deriving DecidableEq

/-- Comparison used when Python sorts records by their `date` field. -/
def byDate {a : Type} (dateOf : a → String) (x y : a) : Prop :=
  dateOf x ≤ dateOf y

instance {a : Type} (dateOf : a → String) : DecidableRel (byDate dateOf) :=
  fun x y => inferInstanceAs (Decidable (dateOf x ≤ dateOf y))

instance {a : Type} (dateOf : a → String) : IsTotal a (byDate dateOf) :=
  ⟨fun x y => le_total (dateOf x) (dateOf y)⟩

instance {a : Type} (dateOf : a → String) : IsTrans a (byDate dateOf) :=
  ⟨fun _ _ _ hxy hyz => le_trans hxy hyz⟩

/-- Python's `round` (banker's rounding, round half to even) on an exact
rational.  Python evaluates `round(i * page_count / sample_count)` on a
float; for the values reachable here the float rounds to the same integer
as the exact rational. -/
def pyRound (q : ℚ) : ℤ :=
  if q - Int.floor q < 1 / 2 then Int.floor q
  else if 1 / 2 < q - Int.floor q then Int.floor q + 1
  else if 2 ∣ Int.floor q then Int.floor q else Int.floor q + 1

/-- The rounded proportional page placement of line 287-290:
`max(1, round((i * page_count) / sample_count))` for `i = 1 .. sample_count`. -/
def roundedPages (pageCount sampleCount : Nat) : List Nat :=
  (List.range sampleCount).map
    (fun i => (max 1 (pyRound ((((i + 1) * pageCount : Nat) : ℚ) / (sampleCount : ℚ)))).toNat)

/-- The sampled page indices of `collect_star_history` (lines 284-292):
all pages when `page_count <= sample_count`, else `sample_count` pages by
rounded proportional placement with page 1 forced in (`sample_pages[0] = 1`
when rounding excluded it). -/
def samplePages (pageCount sampleCount : Nat) : List Nat :=
  if pageCount ≤ sampleCount then
    (List.range pageCount).map (fun i => i + 1)
  else
    if 1 ∈ roundedPages pageCount sampleCount then roundedPages pageCount sampleCount
    else (roundedPages pageCount sampleCount).set 0 1

/-- The outcome of one stargazer page request: a parsed 200 body, a
non-200 status (handled per page at lines 267/308-309), or a raised
`requests.RequestException` (caught only by the `try` wrapped around the
whole sampling run, lines 263/322). -/
inductive FetchResult where
  | ok (body : List String)
  | httpError
  | exn
deriving DecidableEq

/-- `True` exactly for the raised-exception outcome. -/
def FetchResult.isExn : FetchResult → Bool
  | FetchResult.exn => true
  | _ => false

/-- The record the sampling loop appends for a fetched page (lines
306-315): `None` if the response was non-200 or the page body is empty,
otherwise the first item's timestamp truncated to the date plus the
approximate cumulative count `(page - 1) * 100 + 1`.  (The exception
outcome never reaches this point: it aborts the whole loop.) -/
def pageRecord (fetch : Nat → FetchResult) (page : Nat) : Option StarPoint :=
  match fetch page with
  | FetchResult.ok [] => none
  | FetchResult.ok (item :: _) => some ⟨item.take 10, (page - 1) * 100 + 1⟩
  | FetchResult.httpError => none
  | FetchResult.exn => none

/-- Lines 296-305: the pages the loop still has to fetch.  If the first
page's body is non-empty and page 1 is sampled, `1` is removed
(`sample_pages.remove(1)`), the page-1 record being taken from the
already-held response. -/
def starRest (firstData : List String) (sp : List Nat) : List Nat :=
  match firstData with
  | [] => sp
  | _ :: _ => if 1 ∈ sp then sp.erase 1 else sp

/-- Lines 296-303: the page-1 record taken from the first response, when
the body is non-empty and page 1 is sampled. -/
def starFirstRecs (firstData : List String) (sp : List Nat) : List StarPoint :=
  match firstData with
  | [] => []
  | item :: _ => if 1 ∈ sp then [⟨item.take 10, 1⟩] else []

/-- Lines 294-315: the unsorted record list of a run in which no fetch
raised — the page-1 record plus one record per remaining sampled page
whose fetch returned 200 with a non-empty body. -/
def starRecords (fetch : Nat → FetchResult) (firstData : List String)
    (sp : List Nat) : List StarPoint :=
  starFirstRecs firstData sp ++ (starRest firstData sp).filterMap (pageRecord fetch)

/-- `collect_star_history` (lines 250-324).  `fetch p` is the outcome of
requesting stargazer page `p` (each item its `starred_at` string);
`linkPageCount` is the page count read from the `Link` header of the
first response (1 when absent), capped at 400.  The first request doubles
as the fetch of page 1; its failure — exception or non-200 — returns `[]`.
A `requests.RequestException` on any later sampled page propagates to the
`except` around the whole loop and returns `[]` wholesale, discarding the
points already collected; a non-200 later page is skipped per point.  The
surviving records are sorted by date before being returned. -/
def collect_star_history (fetch : Nat → FetchResult)
    (linkPageCount : Nat) (sampleCount : Nat) : List StarPoint :=
  match fetch 1 with
  | FetchResult.ok firstData =>
    if (starRest firstData
          (samplePages (if 400 < linkPageCount then 400 else linkPageCount)
            sampleCount)).any (fun p => (fetch p).isExn) then []
    else
      List.insertionSort (byDate StarPoint.date)
        (starRecords fetch firstData
          (samplePages (if 400 < linkPageCount then 400 else linkPageCount) sampleCount))
  | FetchResult.httpError => []
  | FetchResult.exn => []

/-! ### Package registry collection (`collect_npm_downloads` etc.) -/

/-- The dict built by `collect_npm_downloads` (lines 331-361). -/
structure PkgStats where
  package : String
  source : String
  daily_downloads : Nat
  weekly_downloads : Nat
deriving DecidableEq

/-- `collect_npm_downloads` (lines 331-361): both lookups default to 0 on
any non-200 status or transport failure (`none`); a transport exception on
the daily request also skips the weekly one, which is the case where both
lookups are `none`. -/
def collect_npm_downloads (pkg date : String)
    (dailyLookup : String → String → Option Nat)
    (weeklyLookup : String → Option Nat) : PkgStats :=
  ⟨pkg, "npm", (dailyLookup date pkg).getD 0, (weeklyLookup pkg).getD 0⟩

/-- `collect_package_downloads` (lines 436-457): a package's stats are kept
only when its daily or weekly count is positive. -/
def collect_package_downloads (npmPkgs : List String) (date : String)
    (dailyLookup : String → String → Option Nat)
    (weeklyLookup : String → Option Nat) : List PkgStats :=
  npmPkgs.filterMap (fun p =>
    if 0 < (collect_npm_downloads p date dailyLookup weeklyLookup).daily_downloads
        ∨ 0 < (collect_npm_downloads p date dailyLookup weeklyLookup).weekly_downloads
    then some (collect_npm_downloads p date dailyLookup weeklyLookup)
    else none)

/-- One row of `packages.csv`, also the record shape built by
`collect_npm_history` (lines 382-389). -/
structure PkgRow where
  date : String
  source : String
  package : String
  daily_downloads : Nat
  weekly_downloads : Nat
deriving DecidableEq

/-- Lines 392-396: the rolling weekly value of the `i`-th record is the sum
of `records[max(0, i-6) : i+1]`'s daily downloads (`Nat` subtraction is the
`max(0, ·)`). -/
def weeklyWindowSum (dailies : List Nat) (i : Nat) : Nat :=
  ((dailies.take (i + 1)).drop (i - 6)).sum

/-- `collect_npm_history` (lines 364-406): on success, each returned day
becomes a record whose weekly value is the rolling 7-day sum over the
returned batch only; any failure (`none`) yields no records. -/
def collect_npm_history (pkg : String)
    (fetchResult : Option (List (String × Nat))) : List PkgRow :=
  match fetchResult with
  | none => []
  | some entries =>
    entries.mapIdx (fun i e =>
      ⟨e.1, "npm", pkg, e.2, weeklyWindowSum (entries.map Prod.snd) i⟩)

/-- A historical range request issued to the registry:
start date, end date, package. -/
structure RangeReq where
  startDate : String
  endDate : String
  package : String
deriving DecidableEq

/-- `collect_package_history` (lines 409-433): one range request per
configured npm package, spanning `today - 365` through `today - 1` (UTC
day numbers rendered by `fmt`); records on already-present dates are
dropped.  Returns the issued requests alongside the surviving records. -/
def collect_package_history (npmPkgs : List String) (existingDates : List String)
    (today : Int) (fmt : Int → String)
    (fetchRange : String → String → String → Option (List (String × Nat))) :
    List RangeReq × List PkgRow :=
  (npmPkgs.map (fun p => ⟨fmt (today - 365), fmt (today - 1), p⟩),
   npmPkgs.flatMap (fun p =>
     (collect_npm_history p (fetchRange (fmt (today - 365)) (fmt (today - 1)) p)).filter
       (fun r => decide (r.date ∉ existingDates))))

/-! ### Reconciliation Store: snapshot content and CSV tables -/

/-- Profile counters extracted by `collect_repo_info` (lines 106-118). -/
structure RepoInfo where
  fullName : String
  stars : Nat
  forks : Nat
  watchers : Nat
  openIssuesAndPrs : Nat
  sizeKb : Nat
deriving DecidableEq

/-- One traffic block (`views` or `clones`) of `collect_traffic`. -/
structure TrafficCounts where
  count : Nat
  uniques : Nat
  daily : List (String × Nat × Nat)
deriving DecidableEq

/-- `collect_traffic` result (lines 146-178); each key is present only when
its fetch succeeded.  Referrer and popular-path payloads are opaque JSON
blobs passed through to the snapshot, modelled as raw strings. -/
structure Traffic where
  views : Option TrafficCounts
  clones : Option TrafficCounts
  referrers : Option (List String)
  popularPaths : Option (List String)
deriving DecidableEq

/-- One release asset (lines 188-193). -/
structure Asset where
  name : String
  download_count : Int
  size : Nat
deriving DecidableEq

/-- One release (lines 195-200). -/
structure Release where
  tag : String
  name : String
  publishedAt : String
  assets : List Asset
deriving DecidableEq

/-- `collect_code_frequency`'s result (lines 211-222). -/
structure CodeFreq where
  week : String
  additions : Int
  deletions : Int
deriving DecidableEq

/-- `collect_code_frequency` (lines 211-222): keep the most recent week of
the raw `[timestamp, additions, deletions]` triples, deletions as an
absolute value; `{}` (here `none`) when the fetch failed or was empty. -/
def collect_code_frequency (raw : Option (List (Int × Int × Int)))
    (fmtWeek : Int → String) : Option CodeFreq :=
  match raw with
  | none => none
  | some [] => none
  | some (x :: xs) =>
    some ⟨fmtWeek ((x :: xs).getLast (by simp)).1,
      ((x :: xs).getLast (by simp)).2.1,
      |((x :: xs).getLast (by simp)).2.2|⟩

/-- `calculate_total_downloads` (lines 460-466). -/
def calculate_total_downloads (releases : List Release) : Int :=
  ((releases.flatMap Release.assets).map Asset.download_count).sum

/-- The per-day JSON snapshot assembled by `collect_repo` (lines 636-648). -/
structure Snapshot where
  collectedAt : String
  repo : RepoInfo
  traffic : Traffic
  releases : List Release
  languages : List (String × Nat)
  codeFrequency : Option CodeFreq
  contributorsCount : Nat
  releasesDownloads : Int
  starHistory : List StarPoint
  issueCounts : Nat × Nat
  packages : List PkgStats
deriving DecidableEq

/-- One row of `aggregate.csv`; `none` renders as the empty cell used when
a traffic block is missing (`views.get("count", "")`). -/
structure AggRow where
  date : String
  views : Option Nat
  views_unique : Option Nat
  clones : Option Nat
  clones_unique : Option Nat
  stars : Nat
  forks : Nat
  open_issues : Nat
  open_prs : Nat
  watchers : Nat
  size_kb : Nat
  releases_downloads : Int
deriving DecidableEq

/-- One row of `releases.csv`. -/
structure RelRow where
  date : String
  tag : String
  asset_name : String
  asset_size : Nat
  download_count : Int
  downloads_delta : Int
deriving DecidableEq

/-- `date_exists_in_csv` (lines 498-510): `False` for an absent file,
otherwise an exact scan of the rows' `date` field. -/
def date_exists_in_csv {r : Type} (dateOf : r → String) (file : Option (List r))
    (date : String) : Bool :=
  match file with
  | none => false
  | some rows => rows.any (fun row => dateOf row == date)

/-- `ensure_csv_headers` (lines 489-495): create the (empty but
headed) file when absent, no-op otherwise. -/
def ensure_csv_headers {r : Type} (file : Option (List r)) : Option (List r) :=
  some (file.getD [])

/-- The aggregate row derived from a snapshot (lines 520-539). -/
def aggRowOf (date : String) (snap : Snapshot) : AggRow :=
  ⟨date,
   snap.traffic.views.map TrafficCounts.count,
   snap.traffic.views.map TrafficCounts.uniques,
   snap.traffic.clones.map TrafficCounts.count,
   snap.traffic.clones.map TrafficCounts.uniques,
   snap.repo.stars, snap.repo.forks,
   snap.issueCounts.1, snap.issueCounts.2,
   snap.repo.watchers, snap.repo.sizeKb,
   snap.releasesDownloads⟩

/-- `append_aggregate_row` (lines 513-544): ensure headers, reject the
whole write when the date already has a row, else append one row. -/
def append_aggregate_row (file : Option (List AggRow)) (date : String)
    (snap : Snapshot) : Bool × Option (List AggRow) :=
  if date_exists_in_csv AggRow.date (ensure_csv_headers file) date then
    (false, ensure_csv_headers file)
  else
    (true, some ((ensure_csv_headers file).getD [] ++ [aggRowOf date snap]))

/-- The `f"{tag}|{name}"` key of the previous-data dict (line 481/563). -/
def relKey (tag assetName : String) : String := tag ++ "|" ++ assetName

/-- `get_previous_releases_data` (lines 469-486): read the whole persisted
`releases.csv` into a per-key map, later rows overwriting earlier ones
(last-write-wins by file order); empty when the file is absent. -/
def get_previous_releases_data (file : Option (List RelRow)) : String → Option Int :=
  match file with
  | none => fun _ => none
  | some rows =>
    rows.foldl
      (fun m row => fun k =>
        if k = relKey row.tag row.asset_name then some row.download_count else m k)
      (fun _ => none)

/-- `update_releases_csv` (lines 547-572): reject when the date already has
rows; else append one row per (release, asset) with
`delta = count - previous.get(key, count)`. -/
def update_releases_csv (file : Option (List RelRow)) (date : String)
    (releases : List Release) (previous : String → Option Int) :
    Bool × Option (List RelRow) :=
  if date_exists_in_csv RelRow.date (ensure_csv_headers file) date then
    (false, ensure_csv_headers file)
  else
    (true, some ((ensure_csv_headers file).getD [] ++
      releases.flatMap (fun rel =>
        rel.assets.map (fun a =>
          ⟨date, rel.tag, a.name, a.size, a.download_count,
           a.download_count - (previous (relKey rel.tag a.name)).getD a.download_count⟩))))

/-- `update_packages_csv` (lines 575-596): reject when the date already has
rows; else append one row per package stat (no write when there are none,
which coincides with appending the empty list). -/
def update_packages_csv (file : Option (List PkgRow)) (date : String)
    (packagesData : List PkgStats) : Bool × Option (List PkgRow) :=
  if date_exists_in_csv PkgRow.date (ensure_csv_headers file) date then
    (false, ensure_csv_headers file)
  else
    (true, some ((ensure_csv_headers file).getD [] ++
      packagesData.map (fun s =>
        ⟨date, s.source, s.package, s.daily_downloads, s.weekly_downloads⟩)))

/-! ### Backfill Planner and per-repository pass -/

/-- Lines 674-700 of `collect_repo`: count the distinct dates already in
`packages.csv` (a Python `set` of every row's date); when fewer than 30,
run the historical collection and, if it returned records, append them
sorted by date ascending. -/
def backfill_append (npmPkgs : List String) (today : Int) (fmt : Int → String)
    (fetchRange : String → String → String → Option (List (String × Nat)))
    (file : Option (List PkgRow)) : List RangeReq × Option (List PkgRow) :=
  if (((file.getD []).map PkgRow.date).dedup).length < 30 then
    if (collect_package_history npmPkgs ((file.getD []).map PkgRow.date)
        today fmt fetchRange).2 ≠ [] then
      ((collect_package_history npmPkgs ((file.getD []).map PkgRow.date)
          today fmt fetchRange).1,
       some ((file.getD []) ++
         List.insertionSort (byDate PkgRow.date)
           (collect_package_history npmPkgs ((file.getD []).map PkgRow.date)
             today fmt fetchRange).2))
    else
      ((collect_package_history npmPkgs ((file.getD []).map PkgRow.date)
          today fmt fetchRange).1, file)
  else ([], file)

/-- Lines 671-707 of `collect_repo`: the whole packages-CSV section —
backfill, then the live single-date append (attempted only when there is
live package data).  Returns the issued range requests, the new file, and
the per-table append reports (table name, appended?). -/
def packages_section (npmPkgs : List String) (date : String)
    (packagesData : List PkgStats) (today : Int) (fmt : Int → String)
    (fetchRange : String → String → String → Option (List (String × Nat)))
    (file : Option (List PkgRow)) :
    List RangeReq × Option (List PkgRow) × List (String × Bool) :=
  if packagesData ≠ [] then
    ((backfill_append npmPkgs today fmt fetchRange file).1,
     (update_packages_csv (backfill_append npmPkgs today fmt fetchRange file).2
        date packagesData).2,
     [("packages",
       (update_packages_csv (backfill_append npmPkgs today fmt fetchRange file).2
          date packagesData).1)])
  else
    ((backfill_append npmPkgs today fmt fetchRange file).1,
     (backfill_append npmPkgs today fmt fetchRange file).2, [])

/-- The persisted `star_history.csv`: its byte size (`st_size`) and rows. -/
structure StarFile where
  size : Nat
  rows : List StarPoint
deriving DecidableEq

/-- Line 711's guard: the file does not exist, or is under 500 bytes. -/
def starFileSmallOrAbsent (file : Option StarFile) : Bool :=
  match file with
  | none => true
  | some f => f.size < 500

/-- Lines 709-718: overwrite `star_history.csv` wholesale with the sampled
points when some were sampled and the file is small or absent; otherwise
leave it untouched.  `starSize` abstracts the byte size of the written
file. -/
def update_star_history_file (starHistory : List StarPoint)
    (starSize : List StarPoint → Nat) (file : Option StarFile) : Option StarFile :=
  if starHistory ≠ [] ∧ starFileSmallOrAbsent file then
    some ⟨starSize starHistory, starHistory⟩
  else file

/-- The remote world one collection pass runs against: results of the
GitHub fetch helpers (whose HTTP mechanics are outside the embedding) plus
the raw inputs of the helpers modelled in full. -/
structure Env where
  repoInfo : Option RepoInfo
  traffic : Traffic
  releases : List Release
  languages : List (String × Nat)
  codeFreqRaw : Option (List (Int × Int × Int))
  fmtWeek : Int → String
  contributorsCount : Nat
  issueCounts : Nat × Nat
  starFetch : Nat → FetchResult
  starLinkPages : Nat
  npmDaily : String → String → Option Nat
  npmWeekly : String → Option Nat
  npmRange : String → String → String → Option (List (String × Nat))
  today : Int
  fmtDate : Int → String
  starSize : List StarPoint → Nat
  collectedAt : String

/-- The persisted state of one repository's data directory. -/
structure RepoState where
  snapshots : List (String × Snapshot)
  aggregateCsv : Option (List AggRow)
  releasesCsv : Option (List RelRow)
  packagesCsv : Option (List PkgRow)
  starCsv : Option StarFile
deriving DecidableEq

/-- `collect_repo` (lines 599-720): skip everything when the dated snapshot
exists; abort (returning `False`) when the profile fetch fails; otherwise
write the snapshot, append to the aggregate, releases and packages tables,
and conditionally replace the star-history table.  Besides success and the
new state it returns the per-table append reports (table, appended?). -/
def collect_repo (env : Env) (date : String) (pkgCfg : Option (List String))
    (s : RepoState) : Bool × RepoState × List (String × Bool) :=
  if (s.snapshots.lookup date).isSome then (true, s, [])
  else
    match env.repoInfo with
    | none => (false, s, [])
    | some info =>
      let starHistory := collect_star_history env.starFetch env.starLinkPages 15
      let packagesData := match pkgCfg with
        | none => []
        | some npm => collect_package_downloads npm date env.npmDaily env.npmWeekly
      let snap : Snapshot := {
        collectedAt := env.collectedAt
        repo := info
        traffic := env.traffic
        releases := env.releases
        languages := env.languages
        codeFrequency := collect_code_frequency env.codeFreqRaw env.fmtWeek
        contributorsCount := env.contributorsCount
        releasesDownloads := calculate_total_downloads env.releases
        starHistory := starHistory
        issueCounts := env.issueCounts
        packages := packagesData }
      let agg := append_aggregate_row s.aggregateCsv date snap
      let rel := update_releases_csv s.releasesCsv date env.releases
        (get_previous_releases_data s.releasesCsv)
      let pkg := match pkgCfg with
        | none => (([] : List RangeReq), s.packagesCsv, ([] : List (String × Bool)))
        | some npm =>
          packages_section npm date packagesData env.today env.fmtDate env.npmRange
            s.packagesCsv
      let star := update_star_history_file starHistory env.starSize s.starCsv
      (true,
       ⟨(date, snap) :: s.snapshots, agg.2, rel.2, pkg.2.1, star⟩,
       [("aggregate", agg.1), ("releases", rel.1)] ++ pkg.2.2)

/-! ### Run Orchestrator (`main`, lines 723-769) -/

/-- One entry of `config.json`'s `repos` list: the bare-string legacy form
or the structured form with optional package configuration. -/
inductive ConfigEntry where
  | plain (name : String)
  | structured (repo : Option String) (packages : Option (List String))
deriving DecidableEq

/-- Lines 752-761: extract the repository name and package configuration;
`none` for an invalid entry (missing or empty repo name), which `main`
skips without counting a success. -/
def entryRepo : ConfigEntry → Option (String × Option (List String))
  | ConfigEntry.plain n => if n = "" then none else some (n, none)
  | ConfigEntry.structured r p =>
    match r with
    | none => none
    | some n => if n = "" then none else some (n, p)

/-- The outcome of one loop iteration (lines 749-766): `runRepo` is the
per-repository collection, `Except.error` standing for a raised exception,
which the `try`/`except` converts into a non-success;  invalid entries are
likewise non-successes. -/
def repo_outcome (runRepo : String → Option (List String) → Except String Bool)
    (e : ConfigEntry) : Bool :=
  match entryRepo e with
  | none => false
  | some np =>
    match runRepo np.1 np.2 with
    | Except.ok b => b
    | Except.error _ => false

/-- `main` (lines 723-769) after configuration loading: exit 1 when no
repositories are configured; otherwise run every entry, tally successes,
and exit 0 exactly when every entry succeeded. -/
def main_model (runRepo : String → Option (List String) → Except String Bool)
    (entries : List ConfigEntry) : Nat :=
  if entries.isEmpty then 1
  else if entries.foldl (fun acc e => if repo_outcome runRepo e then acc + 1 else acc) 0
      = entries.length then 0
  else 1

/-- A concrete `packages.csv` content: 30 rows for package `"a"` on 30
distinct dates (used to exercise the backfill guard on a table whose
dates all belong to one package). -/
def demoRows : List PkgRow :=
  (List.range 30).map (fun i => ⟨toString i, "npm", "a", 1, 1⟩)

/-- A stargazer feed with one star event on every page. -/
def demoPages : Nat → List String := fun _ => ["2024-01-02T00:00:00Z"]

/-- A fully-successful stargazer fetch. -/
def demoF : Nat → FetchResult := fun _ => FetchResult.ok ["2024-01-02T00:00:00Z"]

/-- The same fetch with page 2 answering non-200. -/
def demoG : Nat → FetchResult :=
  fun p => if p = 2 then FetchResult.httpError else demoF p

/-- The same fetch with page 2 raising a transport exception. -/
def demoGexn : Nat → FetchResult :=
  fun p => if p = 2 then FetchResult.exn else demoF p

/-- A two-day historical npm batch. -/
def demoEntries : List (String × Nat) := [("2024-01-01", 1), ("2024-01-02", 2)]

/-- A small concrete snapshot. -/
def demoSnapshot : Snapshot :=
  { collectedAt := "2024-01-15T00:00:00Z"
    repo := ⟨"o/r", 120, 1, 2, 3, 4⟩
    traffic := ⟨none, none, none, none⟩
    releases := []
    languages := []
    codeFrequency := none
    contributorsCount := 5
    releasesDownloads := 0
    starHistory := []
    issueCounts := (1, 2)
    packages := [] }

/-- A small persisted release table with two rows for the key `t|a`. -/
def demoRelRows : List RelRow :=
  [⟨"2024-01-10", "t", "a", 1, 5, 0⟩, ⟨"2024-01-11", "t", "a", 1, 9, 4⟩]

/-- One sampled star point. -/
def demoStar : List StarPoint := [⟨"2024-01-01", 1⟩]

/-- A repository state whose snapshot for `2024-01-15` already exists. -/
def demoState : RepoState :=
  ⟨[("2024-01-15", demoSnapshot)], none, none, none, none⟩

/-- A concrete environment. -/
def demoEnv : Env :=
  { repoInfo := some ⟨"o/r", 120, 1, 2, 3, 4⟩
    traffic := ⟨none, none, none, none⟩
    releases := []
    languages := []
    codeFreqRaw := none
    fmtWeek := fun _ => ""
    contributorsCount := 0
    issueCounts := (0, 0)
    starFetch := fun _ => FetchResult.httpError
    starLinkPages := 1
    npmDaily := fun _ _ => none
    npmWeekly := fun _ => none
    npmRange := fun _ _ _ => none
    today := 0
    fmtDate := fun _ => ""
    starSize := fun _ => 0
    collectedAt := "2024-01-15T00:00:00Z" }

/-! ### Sampling Engine lemmas -/

theorem pyRound_le_ceil (q : ℚ) : pyRound q ≤ Int.ceil q := by
  unfold pyRound
  have hfc : Int.floor q ≤ Int.ceil q := Int.floor_le_ceil q
  have hstep : 1 / 2 ≤ q - Int.floor q → Int.floor q + 1 ≤ Int.ceil q := by
    intro hhalf
    have hlt : (Int.floor q : ℚ) < q := by linarith
    have hlt2 : (Int.floor q : ℚ) < (Int.ceil q : ℚ) := lt_of_lt_of_le hlt (Int.le_ceil q)
    exact_mod_cast Int.add_one_le_iff.mpr (by exact_mod_cast hlt2)
  split
  · exact hfc
  · split
    · exact hstep (by linarith)
    · split
      · exact hfc
      · exact hstep (by linarith)

theorem roundedPages_bounds {pageCount sampleCount r : Nat} (hpc : 1 ≤ pageCount)
    (hr : r ∈ roundedPages pageCount sampleCount) : 1 ≤ r ∧ r ≤ pageCount := by
  rcases List.mem_map.mp hr with ⟨i, hi, rfl⟩
  have hi' : i + 1 ≤ sampleCount := List.mem_range.mp hi
  have hsc0 : 0 < sampleCount := by omega
  constructor
  · have : (1 : ℤ) ≤ max 1 (pyRound ((((i + 1) * pageCount : Nat) : ℚ) / (sampleCount : ℚ))) :=
      le_max_left 1 _
    omega
  · have hle : ((((i + 1) * pageCount : Nat) : ℚ) / (sampleCount : ℚ)) ≤ (pageCount : ℚ) := by
      rw [div_le_iff₀ (by exact_mod_cast hsc0)]
      push_cast
      have h1 : ((i : ℚ) + 1) ≤ (sampleCount : ℚ) := by exact_mod_cast hi'
      have := mul_le_mul_of_nonneg_right h1 (show (0 : ℚ) ≤ pageCount by positivity)
      linarith
    have hceil : Int.ceil ((((i + 1) * pageCount : Nat) : ℚ) / (sampleCount : ℚ)) ≤ (pageCount : ℤ) :=
      Int.ceil_le.mpr (by exact_mod_cast hle)
    have hr1 : pyRound ((((i + 1) * pageCount : Nat) : ℚ) / (sampleCount : ℚ)) ≤ (pageCount : ℤ) :=
      le_trans (pyRound_le_ceil _) hceil
    have hmax : max 1 (pyRound ((((i + 1) * pageCount : Nat) : ℚ) / (sampleCount : ℚ)))
        ≤ (pageCount : ℤ) := max_le (by exact_mod_cast hpc) hr1
    omega

theorem samplePages_mem {pageCount sampleCount q : Nat}
    (hq : q ∈ samplePages pageCount sampleCount) : 1 ≤ q ∧ q ≤ pageCount := by
  unfold samplePages at hq
  split at hq
  · rcases List.mem_map.mp hq with ⟨i, hi, rfl⟩
    exact ⟨Nat.le_add_left 1 i, List.mem_range.mp hi⟩
  · rename_i hgt
    have hpc1 : 1 ≤ pageCount := by omega
    split at hq
    · exact roundedPages_bounds hpc1 hq
    · rcases List.mem_or_eq_of_mem_set hq with h | rfl
      · exact roundedPages_bounds hpc1 h
      · exact ⟨le_refl 1, hpc1⟩

theorem one_mem_samplePages {pageCount sampleCount : Nat}
    (hpc : 1 ≤ pageCount) (hsc : 1 ≤ sampleCount) :
    1 ∈ samplePages pageCount sampleCount := by
  unfold samplePages
  split
  · exact List.mem_map.mpr ⟨0, List.mem_range.mpr (by omega), rfl⟩
  · split
    · assumption
    · have hlen : (roundedPages pageCount sampleCount).length = sampleCount := by
        simp [roundedPages]
      cases hc : roundedPages pageCount sampleCount with
      | nil => rw [hc] at hlen; simp at hlen; omega
      | cons h t => simp

theorem length_samplePages {pageCount sampleCount : Nat} :
    (samplePages pageCount sampleCount).length = min sampleCount pageCount := by
  unfold samplePages
  split
  · simp; omega
  · rename_i hgt
    split <;> simp [roundedPages] <;> omega

theorem length_filterMap_of_isSome {a b : Type} (f : a → Option b) :
    ∀ l : List a, (∀ x ∈ l, (f x).isSome) → (l.filterMap f).length = l.length := by
  intro l
  induction l with
  | nil => intro _; rfl
  | cons x t ih =>
    intro h
    rcases Option.isSome_iff_exists.mp (h x (List.mem_cons_self x t)) with ⟨y, hy⟩
    simp only [List.filterMap_cons, hy, List.length_cons]
    rw [ih (fun z hz => h z (List.mem_cons_of_mem x hz))]

theorem any_isExn_ok (pages : Nat → List String) (l : List Nat) :
    (l.any (fun p => (FetchResult.ok (pages p)).isExn)) = false := by
  induction l with
  | nil => rfl
  | cons x t ih => simp [List.any_cons, ih, FetchResult.isExn]

theorem star_sampling_main (pages : Nat → List String) (pc sc : Nat)
    (hpc : 1 ≤ pc) (hsc : 1 ≤ sc)
    (hne : ∀ p, 1 ≤ p → p ≤ pc → pages p ≠ []) :
    (List.insertionSort (byDate StarPoint.date)
        (starRecords (fun p => FetchResult.ok (pages p)) (pages 1) (samplePages pc sc))).length
      = min sc pc
    ∧ List.Sorted (byDate StarPoint.date)
        (List.insertionSort (byDate StarPoint.date)
          (starRecords (fun p => FetchResult.ok (pages p)) (pages 1) (samplePages pc sc)))
    ∧ (∃ r ∈ List.insertionSort (byDate StarPoint.date)
          (starRecords (fun p => FetchResult.ok (pages p)) (pages 1) (samplePages pc sc)),
        r.stars = 1)
    ∧ ∀ q ∈ samplePages pc sc,
        ∃ r ∈ List.insertionSort (byDate StarPoint.date)
            (starRecords (fun p => FetchResult.ok (pages p)) (pages 1) (samplePages pc sc)),
          r.stars = (q - 1) * 100 + 1 := by
  have h1mem : 1 ∈ samplePages pc sc := one_mem_samplePages hpc hsc
  have hne1 : pages 1 ≠ [] := hne 1 (le_refl 1) hpc
  cases hfd : pages 1 with
  | nil => exact absurd hfd hne1
  | cons item rest =>
    have hsome : ∀ q ∈ (samplePages pc sc).erase 1,
        (pageRecord (fun p => FetchResult.ok (pages p)) q).isSome := by
      intro q hq
      rcases samplePages_mem (List.mem_of_mem_erase hq) with ⟨hq1, hqpc⟩
      have hne' := hne q hq1 hqpc
      cases hpq : pages q with
      | nil => exact absurd hpq hne'
      | cons a t => simp [pageRecord, hpq]
    have hrec : starRecords (fun p => FetchResult.ok (pages p)) (item :: rest)
          (samplePages pc sc)
        = ⟨item.take 10, 1⟩ ::
            ((samplePages pc sc).erase 1).filterMap
              (pageRecord (fun p => FetchResult.ok (pages p))) := by
      simp [starRecords, starFirstRecs, starRest, h1mem]
    refine ⟨?_, List.sorted_insertionSort _ _, ?_, ?_⟩
    · rw [hrec, List.length_insertionSort, List.length_cons,
        length_filterMap_of_isSome _ _ hsome, List.length_erase_of_mem h1mem,
        length_samplePages]
      have h1 : 1 ≤ min sc pc := le_min hsc hpc
      omega
    · refine ⟨⟨item.take 10, 1⟩, ?_, rfl⟩
      refine (List.perm_insertionSort (byDate StarPoint.date) _).mem_iff.mpr ?_
      rw [hrec]
      exact List.mem_cons_self _ _
    · intro q hq
      by_cases hq1 : q = 1
      · subst hq1
        refine ⟨⟨item.take 10, 1⟩, ?_, rfl⟩
        refine (List.perm_insertionSort (byDate StarPoint.date) _).mem_iff.mpr ?_
        rw [hrec]
        exact List.mem_cons_self _ _
      · have hqe : q ∈ (samplePages pc sc).erase 1 :=
          (List.mem_erase_of_ne hq1).mpr hq
        rcases samplePages_mem hq with ⟨hqlo, hqhi⟩
        have hneq := hne q hqlo hqhi
        cases hpq : pages q with
        | nil => exact absurd hpq hneq
        | cons a t =>
          refine ⟨⟨a.take 10, (q - 1) * 100 + 1⟩, ?_, rfl⟩
          refine (List.perm_insertionSort (byDate StarPoint.date) _).mem_iff.mpr ?_
          rw [hrec]
          refine List.mem_cons_of_mem _ (List.mem_filterMap.mpr ⟨q, hqe, ?_⟩)
          simp [pageRecord, hpq]

theorem collect_star_history_ok (pages : Nat → List String)
    (linkPageCount sampleCount : Nat) :
    collect_star_history (fun p => FetchResult.ok (pages p)) linkPageCount sampleCount
      = List.insertionSort (byDate StarPoint.date)
          (starRecords (fun p => FetchResult.ok (pages p)) (pages 1)
            (samplePages (if 400 < linkPageCount then 400 else linkPageCount)
              sampleCount)) := by
  simp [collect_star_history, any_isExn_ok pages]

/-- Claim C4 — when every sampled page fetch succeeds (and, the feed having
`p` pages, each page in range holds at least one item), the Sampling Engine
returns exactly `min(k, p)` points (`p` capped at 400), sorted by date in
non-decreasing order, with page 1's point (approximate count 1) included
and one point per sampled page (approximate count `(q-1)*100+1` for
page `q`); for `p ≤ k` the sampled pages are exactly `1..p`, for `p > k`
they are the `k` rounded proportional placements. -/
theorem star_sampling_count_sorted (pages : Nat → List String)
    (linkPageCount sampleCount : Nat)
    (hpc : 1 ≤ linkPageCount) (hsc : 1 ≤ sampleCount)
    (hne : ∀ p, 1 ≤ p → p ≤ (if 400 < linkPageCount then 400 else linkPageCount) → pages p ≠ []) :
    (collect_star_history (fun p => FetchResult.ok (pages p)) linkPageCount
        sampleCount).length
      = min sampleCount (if 400 < linkPageCount then 400 else linkPageCount)
    ∧ List.Sorted (byDate StarPoint.date)
        (collect_star_history (fun p => FetchResult.ok (pages p)) linkPageCount sampleCount)
    ∧ (∃ r ∈ collect_star_history (fun p => FetchResult.ok (pages p)) linkPageCount
          sampleCount,
        r.stars = 1)
    ∧ ∀ q ∈ samplePages (if 400 < linkPageCount then 400 else linkPageCount) sampleCount,
        ∃ r ∈ collect_star_history (fun p => FetchResult.ok (pages p)) linkPageCount
            sampleCount,
          r.stars = (q - 1) * 100 + 1 := by
  have hpc1 : 1 ≤ (if 400 < linkPageCount then 400 else linkPageCount) := by
    split <;> omega
  have hmain := star_sampling_main pages
    (if 400 < linkPageCount then 400 else linkPageCount) sampleCount hpc1 hsc hne
  rw [collect_star_history_ok pages linkPageCount sampleCount]
  exact hmain

theorem pageRecord_stars (f : Nat → FetchResult) (p : Nat) (r : StarPoint) :
    pageRecord f p = some r → r.stars = (p - 1) * 100 + 1 := by
  unfold pageRecord
  cases f p with
  | ok d =>
    cases d with
    | nil => intro h; cases h
    | cons a s =>
      intro h
      rw [← Option.some.inj h]
  | httpError => intro h; cases h
  | exn => intro h; cases h

theorem filterMap_pageRecord_drop (f g : Nat → FetchResult) (q : Nat)
    (hq : 2 ≤ q) (hg : ∀ p, p ≠ q → g p = f p) (hgq : g q = FetchResult.httpError) :
    ∀ l : List Nat, (∀ p ∈ l, 1 ≤ p) →
    l.filterMap (pageRecord g)
      = (l.filterMap (pageRecord f)).filter
          (fun r => decide (r.stars ≠ (q - 1) * 100 + 1)) := by
  intro l
  induction l with
  | nil => intro _; rfl
  | cons p t ih =>
    intro hall
    have ht := fun x hx => hall x (List.mem_cons_of_mem p hx)
    have hp1 : 1 ≤ p := hall p (List.mem_cons_self p t)
    by_cases hpq : p = q
    · subst hpq
      have hgr : pageRecord g p = none := by unfold pageRecord; rw [hgq]
      rw [List.filterMap_cons, hgr, List.filterMap_cons]
      cases hfr : pageRecord f p with
      | none => exact ih ht
      | some r =>
        have hstars := pageRecord_stars f p r hfr
        have hfalse : (decide (r.stars ≠ (p - 1) * 100 + 1)) = false := by simp [hstars]
        rw [List.filter_cons, hfalse]
        simp only [Bool.false_eq_true, if_false]
        exact ih ht
    · have hgp : pageRecord g p = pageRecord f p := by unfold pageRecord; rw [hg p hpq]
      rw [List.filterMap_cons, List.filterMap_cons, hgp]
      cases hfr : pageRecord f p with
      | none => exact ih ht
      | some r =>
        have hstars := pageRecord_stars f p r hfr
        have hne : r.stars ≠ (q - 1) * 100 + 1 := by rw [hstars]; omega
        rw [List.filter_cons]
        have htrue : (decide (r.stars ≠ (q - 1) * 100 + 1)) = true := by simp [hne]
        rw [htrue]
        simp only [if_true]
        rw [ih ht]

theorem starRest_pos {fd : List String} {sp : List Nat} (hsp : ∀ p ∈ sp, 1 ≤ p) :
    ∀ p ∈ starRest fd sp, 1 ≤ p := by
  intro p hp
  cases fd with
  | nil => exact hsp p hp
  | cons a t =>
    by_cases h1 : 1 ∈ sp
    · simp only [starRest, h1, if_true] at hp
      exact hsp p (List.mem_of_mem_erase hp)
    · simp only [starRest, h1, if_false] at hp
      exact hsp p hp

theorem starRecords_drop (f g : Nat → FetchResult) (q : Nat)
    (hq : 2 ≤ q) (hg : ∀ p, p ≠ q → g p = f p) (hgq : g q = FetchResult.httpError)
    (fd : List String) (sp : List Nat) (hsp : ∀ p ∈ sp, 1 ≤ p) :
    starRecords g fd sp
      = (starRecords f fd sp).filter (fun r => decide (r.stars ≠ (q - 1) * 100 + 1)) := by
  unfold starRecords
  rw [List.filter_append,
    filterMap_pageRecord_drop f g q hq hg hgq (starRest fd sp) (starRest_pos hsp)]
  congr 1
  cases fd with
  | nil => rfl
  | cons item rest =>
    by_cases h1 : 1 ∈ sp
    · simp only [starFirstRecs, h1, if_true]
      have hkeep : (decide ((1 : Nat) ≠ (q - 1) * 100 + 1)) = true := by
        simp only [decide_eq_true_eq]; omega
      simp only [List.filter_cons, hkeep, if_true, List.filter_nil]
    · simp only [starFirstRecs, h1, if_false]
      rfl

theorem collect_star_history_no_exn (f : Nat → FetchResult)
    (linkPageCount sampleCount : Nat) (fd : List String)
    (hf1 : f 1 = FetchResult.ok fd)
    (hno : (starRest fd (samplePages (if 400 < linkPageCount then 400 else linkPageCount)
        sampleCount)).any (fun p => (f p).isExn) = false) :
    collect_star_history f linkPageCount sampleCount
      = List.insertionSort (byDate StarPoint.date)
          (starRecords f fd
            (samplePages (if 400 < linkPageCount then 400 else linkPageCount)
              sampleCount)) := by
  simp only [collect_star_history, hf1, hno, Bool.false_eq_true, if_false]

/-- Claim C5, counterexample — the claim says any later-page fetch failure
merely drops that page's sample point; but a transport exception
(`requests.RequestException`, caught only around the whole loop) on page 2
of a three-page feed returns the empty sequence wholesale, not the
successful run's output minus page 2's point. -/
theorem star_sampling_transport_failure_counterexample :
    ¬ (collect_star_history demoGexn 3 15).Perm
        ((collect_star_history demoF 3 15).filter
          (fun r => decide (r.stars ≠ (2 - 1) * 100 + 1))) := by
  intro h
  have hlen := h.length_eq
  have hG : (collect_star_history demoGexn 3 15).length = 0 := by decide
  have hcf := collect_star_history_no_exn demoF 3 15 ["2024-01-02T00:00:00Z"]
    rfl (by decide)
  have hfl : ((collect_star_history demoF 3 15).filter
      (fun r => decide (r.stars ≠ (2 - 1) * 100 + 1))).length = 2 := by
    rw [hcf, ← List.countP_eq_length_filter,
      (List.perm_insertionSort (byDate StarPoint.date) _).countP_eq]
    decide
  rw [hG, hfl] at hlen
  omega

/-- Claim C5 (amended) — failure policy of the Sampling Engine: a failure
of the very first request (exception or non-200) returns the empty
sequence; a non-200 response on any single later sampled page merely drops
that page's sample points, leaving the rest as a permutation of the
fully-successful run's output with that page's points filtered away; but a
transport exception on a later sampled page propagates to the handler
around the whole loop and returns the empty sequence wholesale.  (The
model is a total function: no error escapes to the caller.) -/
theorem star_sampling_failure_policy (f g : Nat → FetchResult)
    (linkPageCount sampleCount q : Nat) (hq : 2 ≤ q)
    (hfex : ∀ p, f p ≠ FetchResult.exn)
    (hg : ∀ p, p ≠ q → g p = f p) :
    (∀ h : Nat → FetchResult,
      h 1 = FetchResult.exn ∨ h 1 = FetchResult.httpError →
      collect_star_history h linkPageCount sampleCount = [])
    ∧ (g q = FetchResult.httpError →
      (collect_star_history g linkPageCount sampleCount).Perm
        ((collect_star_history f linkPageCount sampleCount).filter
          (fun r => decide (r.stars ≠ (q - 1) * 100 + 1))))
    ∧ (g q = FetchResult.exn →
      ∀ firstData, f 1 = FetchResult.ok firstData →
      q ∈ samplePages (if 400 < linkPageCount then 400 else linkPageCount) sampleCount →
      collect_star_history g linkPageCount sampleCount = []) := by
  refine ⟨?_, ?_, ?_⟩
  · intro h hh
    unfold collect_star_history
    rcases hh with h1 | h1 <;> rw [h1]
  · intro hgq
    have hg1 : g 1 = f 1 := hg 1 (by omega)
    cases hf1 : f 1 with
    | exn => exact absurd hf1 (hfex 1)
    | httpError =>
      have hcg : collect_star_history g linkPageCount sampleCount = [] := by
        unfold collect_star_history
        rw [hg1, hf1]
      have hcf : collect_star_history f linkPageCount sampleCount = [] := by
        unfold collect_star_history
        rw [hf1]
      rw [hcg, hcf]
      rfl
    | ok fd =>
      have hfno : (starRest fd (samplePages
          (if 400 < linkPageCount then 400 else linkPageCount) sampleCount)).any
            (fun p => (f p).isExn) = false := by
        refine List.any_eq_false.mpr ?_
        intro p hp
        cases hfp : f p with
        | exn => exact absurd hfp (hfex p)
        | ok d => simp [hfp, FetchResult.isExn]
        | httpError => simp [hfp, FetchResult.isExn]
      have hgno : (starRest fd (samplePages
          (if 400 < linkPageCount then 400 else linkPageCount) sampleCount)).any
            (fun p => (g p).isExn) = false := by
        refine List.any_eq_false.mpr ?_
        intro p hp
        by_cases hpq : p = q
        · subst hpq
          simp [hgq, FetchResult.isExn]
        · rw [hg p hpq]
          cases hfp : f p with
          | exn => exact absurd hfp (hfex p)
          | ok d => simp [hfp, FetchResult.isExn]
          | httpError => simp [hfp, FetchResult.isExn]
      have hgf1 : g 1 = FetchResult.ok fd := by rw [hg1, hf1]
      have hsp : ∀ p ∈ samplePages (if 400 < linkPageCount then 400 else linkPageCount)
          sampleCount, 1 ≤ p := fun p hp => (samplePages_mem hp).1
      have hdrop := starRecords_drop f g q hq hg hgq fd
        (samplePages (if 400 < linkPageCount then 400 else linkPageCount) sampleCount) hsp
      rw [collect_star_history_no_exn g linkPageCount sampleCount fd hgf1 hgno,
        collect_star_history_no_exn f linkPageCount sampleCount fd hf1 hfno]
      refine (List.perm_insertionSort _ _).trans ?_
      rw [hdrop]
      exact ((List.perm_insertionSort (byDate StarPoint.date) _).filter
        (fun r => decide (r.stars ≠ (q - 1) * 100 + 1))).symm
  · intro hgq fd hf1 hqsp
    have hgf1 : g 1 = FetchResult.ok fd := by rw [hg 1 (by omega), hf1]
    have hqrest : q ∈ starRest fd (samplePages
        (if 400 < linkPageCount then 400 else linkPageCount) sampleCount) := by
      cases fd with
      | nil => simpa [starRest] using hqsp
      | cons a t =>
        by_cases h1 : 1 ∈ samplePages
            (if 400 < linkPageCount then 400 else linkPageCount) sampleCount
        · simp only [starRest, h1, if_true]
          exact (List.mem_erase_of_ne (by omega)).mpr hqsp
        · simp only [starRest, h1, if_false]
          exact hqsp
    have hany : (starRest fd (samplePages
        (if 400 < linkPageCount then 400 else linkPageCount) sampleCount)).any
          (fun p => (g p).isExn) = true :=
      List.any_eq_true.mpr ⟨q, hqrest, by simp [hgq, FetchResult.isExn]⟩
    simp only [collect_star_history, hgf1, hany, if_true]

/-! ### Package registry lemmas -/

/-- Claim C10 — a failed daily (resp. weekly) registry lookup degrades to
a zero count, and a package whose daily and weekly counts are both zero is
omitted from the live row set: no `packages.csv` row is appended for it. -/
theorem zero_download_package_omitted (npmPkgs : List String) (date p : String)
    (dailyLookup : String → String → Option Nat) (weeklyLookup : String → Option Nat) :
    (dailyLookup date p = none →
      (collect_npm_downloads p date dailyLookup weeklyLookup).daily_downloads = 0)
    ∧ (weeklyLookup p = none →
      (collect_npm_downloads p date dailyLookup weeklyLookup).weekly_downloads = 0)
    ∧ ((collect_npm_downloads p date dailyLookup weeklyLookup).daily_downloads = 0 →
      (collect_npm_downloads p date dailyLookup weeklyLookup).weekly_downloads = 0 →
      (∀ s ∈ collect_package_downloads npmPkgs date dailyLookup weeklyLookup,
        s.package ≠ p)
      ∧ ∀ file : Option (List PkgRow),
          ∀ row ∈ ((update_packages_csv file date
              (collect_package_downloads npmPkgs date dailyLookup weeklyLookup)).2.getD
                []).drop (file.getD []).length,
            row.package ≠ p) := by
  refine ⟨fun h => by simp [collect_npm_downloads, h],
    fun h => by simp [collect_npm_downloads, h], ?_⟩
  intro hd hw
  have hmem : ∀ s ∈ collect_package_downloads npmPkgs date dailyLookup weeklyLookup,
      s.package ≠ p := by
    intro s hs hsp
    rcases List.mem_filterMap.mp hs with ⟨x, _, hsx⟩
    split at hsx
    · rename_i hpos
      have hx : s = collect_npm_downloads x date dailyLookup weeklyLookup :=
        (Option.some.inj hsx).symm
      have hxp : x = p := by rw [hx] at hsp; exact hsp
      rw [hxp] at hpos
      rcases hpos with hpos | hpos
      · rw [hd] at hpos; exact absurd hpos (by omega)
      · rw [hw] at hpos; exact absurd hpos (by omega)
    · cases hsx
  refine ⟨hmem, ?_⟩
  intro file row hrow
  unfold update_packages_csv at hrow
  split at hrow
  · simp only [ensure_csv_headers, Option.getD_some] at hrow
    rw [List.drop_eq_nil_of_le (le_refl _)] at hrow
    cases hrow
  · simp only [ensure_csv_headers, Option.getD_some] at hrow
    rw [List.drop_left] at hrow
    rcases List.mem_map.mp hrow with ⟨s, hs, hrs⟩
    intro hp
    exact hmem s hs (by rw [← hrs] at hp; exact hp)

theorem sum_take_eq_sum_range (l : List Nat) :
    ∀ k, k ≤ l.length → (l.take k).sum = ∑ j in Finset.range k, l.getD j 0 := by
  intro k
  induction k with
  | zero => intro _; simp
  | succ k ih =>
    intro hk
    rw [Finset.sum_range_succ, ← ih (by omega),
      List.sum_take_succ l k (by omega)]
    congr 1
    rw [List.getD_eq_getElem l 0 (by omega)]

theorem weeklyWindowSum_eq (l : List Nat) (n : Nat) (h : n < l.length) :
    weeklyWindowSum l n = ∑ j in Finset.Icc (n - 6) n, l.getD j 0 := by
  have hsplit : (l.take (n + 1)).sum
      = (l.take (n - 6)).sum + ((l.take (n + 1)).drop (n - 6)).sum := by
    have htt : (l.take (n + 1)).take (n - 6) = l.take (n - 6) := by
      rw [List.take_take]
      congr 1
      omega
    calc (l.take (n + 1)).sum
        = ((l.take (n + 1)).take (n - 6) ++ (l.take (n + 1)).drop (n - 6)).sum := by
          rw [List.take_append_drop]
      _ = (l.take (n - 6)).sum + ((l.take (n + 1)).drop (n - 6)).sum := by
          rw [List.sum_append, htt]
  have hran : ∑ j in Finset.range (n + 1), l.getD j 0
      = (∑ j in Finset.range (n - 6), l.getD j 0) + ∑ j in Finset.Icc (n - 6) n, l.getD j 0 := by
    rw [Finset.range_eq_Ico,
      ← Nat.Ico_succ_right (n - 6) n,
      Finset.sum_Ico_consecutive _ (by omega : 0 ≤ n - 6) (by omega : n - 6 ≤ n + 1)]
  have ht1 := sum_take_eq_sum_range l (n + 1) (by omega)
  have ht2 := sum_take_eq_sum_range l (n - 6) (by omega)
  unfold weeklyWindowSum
  rw [ht1, ht2] at hsplit
  omega

/-- Claim C7 — in a historical batch, the `n`-th record's weekly value is
the sum of the daily downloads of records `max(0, n-6) .. n` of that batch
(`Nat` subtraction realises the `max`), with no carry from outside the
batch. -/
theorem npm_history_weekly_rolling_sum (pkg : String)
    (entries : List (String × Nat)) (n : Nat) (h : n < entries.length) :
    ((collect_npm_history pkg (some entries)).getD n ⟨"", "", "", 0, 0⟩).weekly_downloads
      = ∑ j in Finset.Icc (n - 6) n, (entries.getD j ("", 0)).2 := by
  have hlen : (collect_npm_history pkg (some entries)).length = entries.length := by
    unfold collect_npm_history
    exact List.length_mapIdx
  have hn' : n < (collect_npm_history pkg (some entries)).length := by omega
  have hget : (collect_npm_history pkg (some entries)).getD n ⟨"", "", "", 0, 0⟩
      = (collect_npm_history pkg (some entries)).get ⟨n, hn'⟩ := by
    rw [List.getD_eq_getElem _ _ hn']
    rfl
  rw [hget]
  unfold collect_npm_history
  rw [List.get_mapIdx entries _ n h]
  show weeklyWindowSum (entries.map Prod.snd) n = _
  rw [weeklyWindowSum_eq (entries.map Prod.snd) n (by simpa using h)]
  refine Finset.sum_congr rfl ?_
  intro j hj
  have hjn : j < entries.length := by
    have := (Finset.mem_Icc.mp hj).2
    omega
  rw [List.getD_eq_getElem (entries.map Prod.snd) 0 (by simpa using hjn),
    List.getD_eq_getElem entries ("", 0) hjn]
  simp

/-! ### Reconciliation Store lemmas -/

theorem date_exists_ensure {r : Type} (dateOf : r → String) (file : Option (List r))
    (date : String) :
    date_exists_in_csv dateOf (ensure_csv_headers file) date
      = date_exists_in_csv dateOf file date := by
  cases file <;> simp [date_exists_in_csv, ensure_csv_headers]

theorem ensure_eq_of_date_exists {r : Type} (dateOf : r → String) (file : Option (List r))
    (date : String) (h : date_exists_in_csv dateOf file date = true) :
    ensure_csv_headers file = file := by
  cases file with
  | none => simp [date_exists_in_csv] at h
  | some rows => rfl

/-- Claim C2 — every date-keyed append (`append_aggregate_row`,
`update_releases_csv`, `update_packages_csv`) scans the existing rows for
an exact match on the `date` field; on a match it writes nothing and
returns `False` ("already present") whatever the new values are, otherwise
it appends all given rows in one write and returns `True` ("appended"):
rejection granularity is the whole date. -/
theorem append_if_new_whole_date (aggFile : Option (List AggRow))
    (relFile : Option (List RelRow)) (pkgFile : Option (List PkgRow))
    (date : String) (snap : Snapshot) (releases : List Release)
    (previous : String → Option Int) (packagesData : List PkgStats) :
    (date_exists_in_csv AggRow.date aggFile date = true →
      append_aggregate_row aggFile date snap = (false, aggFile))
    ∧ (date_exists_in_csv AggRow.date aggFile date = false →
      append_aggregate_row aggFile date snap
        = (true, some (aggFile.getD [] ++ [aggRowOf date snap])))
    ∧ (date_exists_in_csv RelRow.date relFile date = true →
      update_releases_csv relFile date releases previous = (false, relFile))
    ∧ (date_exists_in_csv RelRow.date relFile date = false →
      update_releases_csv relFile date releases previous
        = (true, some (relFile.getD [] ++
            releases.flatMap (fun rel =>
              rel.assets.map (fun a =>
                ⟨date, rel.tag, a.name, a.size, a.download_count,
                 a.download_count
                   - (previous (relKey rel.tag a.name)).getD a.download_count⟩)))))
    ∧ (date_exists_in_csv PkgRow.date pkgFile date = true →
      update_packages_csv pkgFile date packagesData = (false, pkgFile))
    ∧ (date_exists_in_csv PkgRow.date pkgFile date = false →
      update_packages_csv pkgFile date packagesData
        = (true, some (pkgFile.getD [] ++
            packagesData.map (fun s =>
              ⟨date, s.source, s.package, s.daily_downloads, s.weekly_downloads⟩)))) := by
  refine ⟨?_, ?_, ?_, ?_, ?_, ?_⟩ <;> intro h
  · unfold append_aggregate_row
    rw [date_exists_ensure, h, if_pos rfl, ensure_eq_of_date_exists AggRow.date aggFile date h]
  · unfold append_aggregate_row
    rw [date_exists_ensure, h]
    rfl
  · unfold update_releases_csv
    rw [date_exists_ensure, h, if_pos rfl, ensure_eq_of_date_exists RelRow.date relFile date h]
  · unfold update_releases_csv
    rw [date_exists_ensure, h]
    rfl
  · unfold update_packages_csv
    rw [date_exists_ensure, h, if_pos rfl, ensure_eq_of_date_exists PkgRow.date pkgFile date h]
  · unfold update_packages_csv
    rw [date_exists_ensure, h]
    rfl

theorem relFoldl_eq (k : String) :
    ∀ (rows : List RelRow) (m0 : String → Option Int),
    rows.foldl
      (fun m row => fun q =>
        if q = relKey row.tag row.asset_name then some row.download_count else m q)
      m0 k
    = match (rows.filter (fun row => relKey row.tag row.asset_name == k)).getLast? with
      | some r => some r.download_count
      | none => m0 k := by
  intro rows
  induction rows with
  | nil => intro m0; rfl
  | cons row t ih =>
    intro m0
    rw [List.foldl_cons, ih]
    by_cases hk : relKey row.tag row.asset_name = k
    · have hfc : (row :: t).filter (fun row => relKey row.tag row.asset_name == k)
          = row :: t.filter (fun row => relKey row.tag row.asset_name == k) :=
        List.filter_cons_of_pos (by simp [hk])
      rw [hfc]
      cases hft : t.filter (fun row => relKey row.tag row.asset_name == k) with
      | nil => simp [hk.symm]
      | cons x xs =>
        rw [List.getLast?_cons_cons]
        cases h2 : (x :: xs).getLast? with
        | none =>
          have : (x :: xs).getLast?.isSome := List.getLast?_isSome.mpr (by simp)
          rw [h2] at this
          cases this
        | some r => rfl
    · have hfc : (row :: t).filter (fun row => relKey row.tag row.asset_name == k)
          = t.filter (fun row => relKey row.tag row.asset_name == k) :=
        List.filter_cons_of_neg (by simp [hk])
      rw [hfc]
      cases hft : t.filter (fun row => relKey row.tag row.asset_name == k) with
      | nil =>
        have hk' : ¬ (k = relKey row.tag row.asset_name) := fun hh => hk hh.symm
        simp [hk']
      | cons x xs => rfl

theorem get_previous_last_row (rows : List RelRow) (k : String) :
    get_previous_releases_data (some rows) k
      = ((rows.filter (fun row => relKey row.tag row.asset_name == k)).getLast?).map
          RelRow.download_count := by
  show (rows.foldl
      (fun m row => fun q =>
        if q = relKey row.tag row.asset_name then some row.download_count else m q)
      (fun _ => none)) k = _
  rw [relFoldl_eq k rows (fun _ => none)]
  cases (rows.filter (fun row => relKey row.tag row.asset_name == k)).getLast? <;> rfl

/-- Claim C3 — the baseline for a `(tag, asset)` key is the last row for
that key in file order of the persisted release table; a pair with no
prior record is written with delta 0 (its current count is its own
baseline), and a pair with prior count `c0` and current count `c1` is
written with delta exactly `c1 - c0` (an `Int`, so negative when
`c1 < c0`, with no clamping). -/
theorem release_delta_engine (file : Option (List RelRow)) (rows0 : List RelRow)
    (k date : String) (releases : List Release)
    (hnew : date_exists_in_csv RelRow.date file date = false) :
    (get_previous_releases_data (some rows0) k
      = ((rows0.filter (fun row => relKey row.tag row.asset_name == k)).getLast?).map
          RelRow.download_count)
    ∧ ∀ rel ∈ releases, ∀ a ∈ rel.assets,
        (⟨date, rel.tag, a.name, a.size, a.download_count,
          match get_previous_releases_data file (relKey rel.tag a.name) with
          | none => 0
          | some c0 => a.download_count - c0⟩ : RelRow)
        ∈ ((update_releases_csv file date releases
            (get_previous_releases_data file)).2.getD []) := by
  refine ⟨get_previous_last_row rows0 k, ?_⟩
  intro rel hrel a ha
  unfold update_releases_csv
  rw [date_exists_ensure, hnew, if_neg (by simp)]
  simp only [ensure_csv_headers, Option.getD_some]
  refine List.mem_append_right _ ?_
  refine List.mem_flatMap.mpr ⟨rel, hrel, ?_⟩
  refine List.mem_map.mpr ⟨a, ha, ?_⟩
  cases hprev : get_previous_releases_data file (relKey rel.tag a.name) with
  | none => simp [hprev]
  | some c0 => simp [hprev]

/-! ### Star-history table replacement (C9) -/

/-- Claim C9, counterexample — the claim says the table is replaced
whenever the existing file is small or absent; but when the sampler
returned no points the code leaves even an absent file untouched instead
of writing the (empty) replacement. -/
theorem star_history_replace_counterexample :
    ¬ (update_star_history_file [] (fun _ => 0) none
        = some ⟨0, ([] : List StarPoint)⟩) := by
  simp [update_star_history_file]

/-- Claim C9 (amended) — the star-history table is replaced wholesale with
the newly sampled points whenever at least one point was sampled and the
existing file is small (< 500 bytes) or absent; it is never incrementally
merged (the result is either the untouched file or exactly the new
points); when the file is neither small nor absent — or nothing was
sampled — it is left unchanged. -/
theorem star_history_replace_wholesale (sh : List StarPoint)
    (sizeFn : List StarPoint → Nat) (file : Option StarFile) :
    (sh ≠ [] → starFileSmallOrAbsent file = true →
      update_star_history_file sh sizeFn file = some ⟨sizeFn sh, sh⟩)
    ∧ (starFileSmallOrAbsent file = false →
      update_star_history_file sh sizeFn file = file)
    ∧ (sh = [] → update_star_history_file sh sizeFn file = file)
    ∧ (update_star_history_file sh sizeFn file = file
       ∨ update_star_history_file sh sizeFn file = some ⟨sizeFn sh, sh⟩) := by
  refine ⟨fun hne hsm => ?_, fun hb => ?_, fun he => ?_, ?_⟩ <;>
    unfold update_star_history_file
  · rw [if_pos ⟨hne, hsm⟩]
  · rw [if_neg (fun hc => by rw [hb] at hc; exact Bool.false_ne_true hc.2)]
  · rw [if_neg (fun hc => hc.1 he)]
  · split
    · exact Or.inr rfl
    · exact Or.inl rfl

/-! ### Backfill Planner lemmas (C6) -/

theorem backfill_reqs_of_lt (npmPkgs : List String) (today : Int) (fmt : Int → String)
    (fetchRange : String → String → String → Option (List (String × Nat)))
    (file : Option (List PkgRow))
    (h30 : (((file.getD []).map PkgRow.date).dedup).length < 30) :
    (backfill_append npmPkgs today fmt fetchRange file).1
      = npmPkgs.map (fun p => ⟨fmt (today - 365), fmt (today - 1), p⟩) := by
  unfold backfill_append
  rw [if_pos h30]
  split <;> rfl

theorem backfill_of_ge (npmPkgs : List String) (today : Int) (fmt : Int → String)
    (fetchRange : String → String → String → Option (List (String × Nat)))
    (file : Option (List PkgRow))
    (h30 : ¬ (((file.getD []).map PkgRow.date).dedup).length < 30) :
    backfill_append npmPkgs today fmt fetchRange file = ([], file) := by
  unfold backfill_append
  rw [if_neg h30]

theorem collect_package_history_snd (npmPkgs : List String)
    (existingDates : List String) (today : Int) (fmt : Int → String)
    (fetchRange : String → String → String → Option (List (String × Nat))) :
    (collect_package_history npmPkgs existingDates today fmt fetchRange).2
      = npmPkgs.flatMap (fun p =>
          (collect_npm_history p
            (fetchRange (fmt (today - 365)) (fmt (today - 1)) p)).filter
              (fun r => decide (r.date ∉ existingDates))) := rfl

/-- Claim C6, counterexample — the claim keys the under-30-distinct-dates
test to the package's own history, but the code pools the dates of the
whole table: with 30 distinct dates all belonging to package `"a"`, no
historical range request is issued for the newly configured package
`"b"` even though `"b"`'s own history has zero (< 30) distinct dates. -/
theorem backfill_per_package_counterexample :
    (backfill_append ["b"] 100 (fun z => toString z) (fun _ _ _ => some [("x", 1)])
        (some demoRows)).1 = []
    ∧ (((demoRows.filter (fun r => r.package == "b")).map PkgRow.date).dedup).length < 30 := by
  constructor
  · refine (backfill_of_ge _ _ _ _ _ ?_) ▸ rfl
    decide
  · decide

/-- Claim C6 (amended) — a historical range request (spanning
`today - 365` through `today - 1`) is issued for each configured package
iff the repository's package table as a whole has fewer than 30 distinct
dates (pooled across packages); a returned record survives iff its date is
not already present in the table, and the appended block is exactly the
surviving records (a permutation of them), sorted by date ascending onto
the end of the table — nothing else is appended, and nothing is appended
when no record survives. -/
theorem backfill_planner (npmPkgs : List String) (today : Int) (fmt : Int → String)
    (fetchRange : String → String → String → Option (List (String × Nat)))
    (file : Option (List PkgRow)) :
    (∀ p ∈ npmPkgs,
      ((∃ r ∈ (backfill_append npmPkgs today fmt fetchRange file).1, r.package = p)
        ↔ (((file.getD []).map PkgRow.date).dedup).length < 30))
    ∧ (∀ r ∈ (backfill_append npmPkgs today fmt fetchRange file).1,
        r.startDate = fmt (today - 365) ∧ r.endDate = fmt (today - 1))
    ∧ (¬ (((file.getD []).map PkgRow.date).dedup).length < 30 →
        backfill_append npmPkgs today fmt fetchRange file = ([], file))
    ∧ ((((file.getD []).map PkgRow.date).dedup).length < 30 →
        (∀ p ∈ npmPkgs,
          ∀ rec ∈ collect_npm_history p
              (fetchRange (fmt (today - 365)) (fmt (today - 1)) p),
            (rec ∈ (collect_package_history npmPkgs ((file.getD []).map PkgRow.date)
                today fmt fetchRange).2
              ↔ rec.date ∉ (file.getD []).map PkgRow.date))
        ∧ ((collect_package_history npmPkgs ((file.getD []).map PkgRow.date) today fmt
              fetchRange).2 ≠ [] →
            (backfill_append npmPkgs today fmt fetchRange file).2
              = some (file.getD [] ++
                  List.insertionSort (byDate PkgRow.date)
                    (collect_package_history npmPkgs ((file.getD []).map PkgRow.date)
                      today fmt fetchRange).2)
            ∧ List.Sorted (byDate PkgRow.date)
                (List.insertionSort (byDate PkgRow.date)
                  (collect_package_history npmPkgs ((file.getD []).map PkgRow.date)
                    today fmt fetchRange).2)
            ∧ (List.insertionSort (byDate PkgRow.date)
                (collect_package_history npmPkgs ((file.getD []).map PkgRow.date)
                  today fmt fetchRange).2).Perm
                (collect_package_history npmPkgs ((file.getD []).map PkgRow.date)
                  today fmt fetchRange).2
            ∧ ∀ rec ∈ List.insertionSort (byDate PkgRow.date)
                (collect_package_history npmPkgs ((file.getD []).map PkgRow.date)
                  today fmt fetchRange).2,
                rec.date ∉ (file.getD []).map PkgRow.date)
        ∧ ((collect_package_history npmPkgs ((file.getD []).map PkgRow.date) today fmt
              fetchRange).2 = [] →
            (backfill_append npmPkgs today fmt fetchRange file).2 = file)) := by
  refine ⟨?_, ?_, backfill_of_ge npmPkgs today fmt fetchRange file, ?_⟩
  · intro p hp
    by_cases h30 : (((file.getD []).map PkgRow.date).dedup).length < 30
    · rw [backfill_reqs_of_lt npmPkgs today fmt fetchRange file h30]
      exact ⟨fun _ => h30,
        fun _ => ⟨⟨fmt (today - 365), fmt (today - 1), p⟩,
          List.mem_map.mpr ⟨p, hp, rfl⟩, rfl⟩⟩
    · rw [backfill_of_ge npmPkgs today fmt fetchRange file h30]
      exact ⟨fun hex => absurd hex (by simp), fun hlt => absurd hlt h30⟩
  · intro r hr
    by_cases h30 : (((file.getD []).map PkgRow.date).dedup).length < 30
    · rw [backfill_reqs_of_lt npmPkgs today fmt fetchRange file h30] at hr
      rcases List.mem_map.mp hr with ⟨p, _, rfl⟩
      exact ⟨rfl, rfl⟩
    · rw [backfill_of_ge npmPkgs today fmt fetchRange file h30] at hr
      cases hr
  · intro h30
    refine ⟨?_, ?_, ?_⟩
    · intro p hp rec hrec
      rw [collect_package_history_snd]
      constructor
      · intro hmem
        rcases List.mem_flatMap.mp hmem with ⟨p2, _, hpf⟩
        exact of_decide_eq_true (List.mem_filter.mp hpf).2
      · intro hfresh
        exact List.mem_flatMap.mpr
          ⟨p, hp, List.mem_filter.mpr ⟨hrec, decide_eq_true hfresh⟩⟩
    · intro hh
      refine ⟨?_, List.sorted_insertionSort _ _, List.perm_insertionSort _ _, ?_⟩
      · unfold backfill_append
        rw [if_pos h30, if_pos hh]
      · intro rec hrec
        have hrec2 : rec ∈ (collect_package_history npmPkgs
            ((file.getD []).map PkgRow.date) today fmt fetchRange).2 :=
          (List.perm_insertionSort _ _).subset hrec
        rw [collect_package_history_snd] at hrec2
        rcases List.mem_flatMap.mp hrec2 with ⟨p, _, hpf⟩
        exact of_decide_eq_true (List.mem_filter.mp hpf).2
    · intro hh
      unfold backfill_append
      rw [if_pos h30, if_neg (by simp [hh])]

/-! ### Per-repository pass: idempotence (C1) -/

theorem collect_repo_skip (env : Env) (date : String) (pkgCfg : Option (List String))
    (s : RepoState) (h : (s.snapshots.lookup date).isSome) :
    collect_repo env date pkgCfg s = (true, s, []) := by
  unfold collect_repo
  rw [if_pos h]

theorem collect_repo_fail (env : Env) (date : String) (pkgCfg : Option (List String))
    (s : RepoState) (h : ¬ (s.snapshots.lookup date).isSome)
    (h2 : env.repoInfo = none) :
    collect_repo env date pkgCfg s = (false, s, []) := by
  unfold collect_repo
  rw [if_neg h, h2]

theorem collect_repo_snapshots_cons (env : Env) (date : String)
    (pkgCfg : Option (List String)) (s : RepoState) (info : RepoInfo)
    (hl : ¬ (s.snapshots.lookup date).isSome) (henv : env.repoInfo = some info) :
    ∃ snap, (collect_repo env date pkgCfg s).2.1.snapshots
        = (date, snap) :: s.snapshots := by
  unfold collect_repo
  rw [if_neg hl, henv]
  exact ⟨_, rfl⟩

theorem collect_repo_second (env : Env) (date : String)
    (pkgCfg : Option (List String)) (s : RepoState) :
    ∃ b, collect_repo env date pkgCfg ((collect_repo env date pkgCfg s).2.1)
      = (b, (collect_repo env date pkgCfg s).2.1, []) := by
  by_cases hl : (s.snapshots.lookup date).isSome
  · refine ⟨true, ?_⟩
    have h1 : (collect_repo env date pkgCfg s).2.1 = s := by
      rw [collect_repo_skip env date pkgCfg s hl]
    rw [h1, collect_repo_skip env date pkgCfg s hl]
  · cases henv : env.repoInfo with
    | none =>
      have h1 : (collect_repo env date pkgCfg s).2.1 = s := by
        rw [collect_repo_fail env date pkgCfg s hl henv]
      exact ⟨false, by rw [h1, collect_repo_fail env date pkgCfg s hl henv]⟩
    | some info =>
      obtain ⟨snap, hsnap⟩ :=
        collect_repo_snapshots_cons env date pkgCfg s info hl henv
      refine ⟨true, ?_⟩
      have hl2 : (((collect_repo env date pkgCfg s).2.1).snapshots.lookup date).isSome := by
        rw [hsnap]
        simp [List.lookup]
      rw [collect_repo_skip env date pkgCfg _ hl2]

/-- Claim C1 — running the full per-repository pass a second time on the
same date leaves the persisted state exactly as after the first run, and
the second run's per-table append reports all read "already present"
(second component `false`); in particular, when the dated snapshot exists
the whole pass is a no-op returning success with no append attempts. -/
theorem collect_repo_idempotent (env : Env) (date : String)
    (pkgCfg : Option (List String)) (s : RepoState) :
    ((collect_repo env date pkgCfg
        ((collect_repo env date pkgCfg s).2.1)).2.1
      = (collect_repo env date pkgCfg s).2.1)
    ∧ (∀ rep ∈ (collect_repo env date pkgCfg
        ((collect_repo env date pkgCfg s).2.1)).2.2, rep.2 = false)
    ∧ (∀ s2 : RepoState, (s2.snapshots.lookup date).isSome →
        collect_repo env date pkgCfg s2 = (true, s2, [])) := by
  obtain ⟨b, hsec⟩ := collect_repo_second env date pkgCfg s
  exact ⟨by rw [hsec], by rw [hsec]; simp,
    fun s2 h2 => collect_repo_skip env date pkgCfg s2 h2⟩

/-! ### Run Orchestrator lemmas (C8) -/

theorem foldl_count_eq {α : Type} (p : α → Bool) :
    ∀ (l : List α) (n : Nat),
      l.foldl (fun acc e => if p e then acc + 1 else acc) n = n + l.countP p := by
  intro l
  induction l with
  | nil => intro n; simp
  | cons x t ih =>
    intro n
    cases hx : p x <;> (simp [List.foldl_cons, hx, ih, List.countP_cons]; try omega)

/-- Claim C8 — a raised exception (or an invalid entry) during one
repository's collection does not abort the batch: it merely makes that
repository a non-success; the process exits 0 exactly when every
configured repository's collection succeeded (collected or already up to
date) and exits 1 exactly when some repository errored, was invalid, or
returned failure (e.g. unusable profile data). -/
theorem orchestrator_exit_contract
    (runRepo : String → Option (List String) → Except String Bool)
    (entries : List ConfigEntry) (hne : entries ≠ []) :
    (main_model runRepo entries = 0 ↔ ∀ e ∈ entries, repo_outcome runRepo e = true)
    ∧ (main_model runRepo entries = 1 ↔ ∃ e ∈ entries, repo_outcome runRepo e = false)
    ∧ (∀ e ∈ entries, ∀ n pk, entryRepo e = some (n, pk) →
        ∀ msg, runRepo n pk = Except.error msg → repo_outcome runRepo e = false) := by
  have hempty : entries.isEmpty = false := by
    cases entries with
    | nil => exact absurd rfl hne
    | cons x t => rfl
  have hmain : main_model runRepo entries
      = if entries.countP (repo_outcome runRepo) = entries.length then 0 else 1 := by
    unfold main_model
    rw [foldl_count_eq (repo_outcome runRepo) entries 0]
    simp [hempty]
  refine ⟨?_, ?_, ?_⟩
  · rw [hmain]
    constructor
    · intro h0
      by_cases hc : entries.countP (repo_outcome runRepo) = entries.length
      · exact List.countP_eq_length.mp hc
      · rw [if_neg hc] at h0
        cases h0
    · intro hall
      rw [if_pos (List.countP_eq_length.mpr hall)]
  · rw [hmain]
    constructor
    · intro h1
      by_cases hc : entries.countP (repo_outcome runRepo) = entries.length
      · rw [if_pos hc] at h1
        cases h1
      · have hnall : ¬ ∀ e ∈ entries, repo_outcome runRepo e = true :=
          fun hall => hc (List.countP_eq_length.mpr hall)
        push_neg at hnall
        rcases hnall with ⟨e, he, hef⟩
        exact ⟨e, he, by simpa using hef⟩
    · intro hex
      rcases hex with ⟨e, he, hef⟩
      rw [if_neg]
      intro hc
      have := List.countP_eq_length.mp hc e he
      rw [hef] at this
      cases this
  · intro e he n pk hep msg herr
    simp [repo_outcome, hep, herr]

/-! ### Witnesses: concrete instantiations of the hypothesis-bearing
claim theorems -/

theorem star_sampling_count_sorted_witness :
    (collect_star_history (fun p => FetchResult.ok (demoPages p)) 3 15).length
      = min 15 (if 400 < 3 then 400 else 3) :=
  (star_sampling_count_sorted demoPages 3 15 (by decide) (by decide)
    (fun p h1 h2 => by simp [demoPages])).1

theorem star_sampling_failure_policy_witness :
    (collect_star_history demoG 3 15).Perm
      ((collect_star_history demoF 3 15).filter
        (fun r => decide (r.stars ≠ (2 - 1) * 100 + 1))) :=
  (star_sampling_failure_policy demoF demoG 3 15 2 (by decide)
    (fun p => by simp [demoF])
    (fun p hp => by simp [demoG, hp])).2.1 (by decide)

theorem zero_download_package_omitted_witness :
    (collect_npm_downloads "pkg" "2024-01-15" (fun _ _ => none)
      (fun _ => none)).daily_downloads = 0 :=
  (zero_download_package_omitted ["pkg"] "2024-01-15" "pkg" (fun _ _ => none)
    (fun _ => none)).1 rfl

theorem npm_history_weekly_rolling_sum_witness :
    ((collect_npm_history "p" (some demoEntries)).getD 1
        ⟨"", "", "", 0, 0⟩).weekly_downloads
      = ∑ j in Finset.Icc (1 - 6) 1, ((demoEntries.getD j ("", 0)).2) :=
  npm_history_weekly_rolling_sum "p" demoEntries 1 (by decide)

theorem append_if_new_whole_date_witness :
    append_aggregate_row none "2024-01-15" demoSnapshot
      = (true, some [aggRowOf "2024-01-15" demoSnapshot]) :=
  (append_if_new_whole_date none none none "2024-01-15" demoSnapshot []
    (fun _ => none) []).2.1 rfl

theorem release_delta_engine_witness :
    get_previous_releases_data (some demoRelRows) (relKey "t" "a")
      = ((demoRelRows.filter
          (fun row => relKey row.tag row.asset_name == relKey "t" "a")).getLast?).map
        RelRow.download_count :=
  (release_delta_engine none demoRelRows (relKey "t" "a") "2024-01-15" [] rfl).1

theorem star_history_replace_wholesale_witness :
    update_star_history_file demoStar (fun _ => 10) none = some ⟨10, demoStar⟩ :=
  (star_history_replace_wholesale demoStar (fun _ => 10) none).1 (by decide) rfl

theorem backfill_planner_witness :
    backfill_append ["b"] 100 (fun z => toString z) (fun _ _ _ => none)
      (some demoRows) = ([], some demoRows) :=
  (backfill_planner ["b"] 100 (fun z => toString z) (fun _ _ _ => none)
    (some demoRows)).2.2.1 (by decide)

theorem collect_repo_idempotent_witness :
    collect_repo demoEnv "2024-01-15" none demoState = (true, demoState, []) :=
  (collect_repo_idempotent demoEnv "2024-01-15" none demoState).2.2 demoState (by decide)

theorem orchestrator_exit_contract_witness :
    main_model (fun _ _ => Except.ok true) [ConfigEntry.plain "x"] = 0 :=
  (orchestrator_exit_contract (fun _ _ => Except.ok true) [ConfigEntry.plain "x"]
    (by decide)).1.mpr (by decide)

end Collect
